import Mathlib

/-!
Verification of the time-series chart engine of go-battop
(`internal/ui/charts.go`, `internal/ui/view.go`) against its
natural-language specification.

Embedding conventions (shallow embedding of the Go source):

* Go `float64` is modelled as `ℚ` with exact arithmetic.  Every concrete
  input appearing in a claim is a decimal literal whose IEEE-754 binary64
  evaluation agrees with the exact rational evaluation at every comparison
  and conversion the claims exercise (the values are far from any
  representation or rounding boundary, except the tie 1234.5 for `%.0f`,
  which is exactly representable in binary64 and is resolved by Go's
  documented round-half-to-even, modelled explicitly in `roundHalfEven`).
  The source constants 0.001, 0.5 and 0.1 are modelled as `1/1000`, `1/2`
  and `1/10`.
* Go `int` is modelled as `Int`; Go integer division truncates toward
  zero, which is `Int.tdiv`.  Go `int(x)` conversion of a `float64`
  truncates toward zero, modelled by `goTrunc`.
* Go strings are modelled as `List Char` (rune sequences).  All titles,
  units and colors appearing in the claims are ASCII, so Go's byte-based
  `len` and slicing coincide with the rune-based model.
* Operations that can panic in Go (negative `strings.Repeat` count,
  out-of-range slice bounds, negative `make` length) are modelled in
  `Option`: `none` is a panic.  Functions whose call sites make a panic
  impossible are modelled total where noted.
* `time.Now()` in `ChartData.Add` is modelled by an explicit clock
  argument `t : Nat` (seconds); timestamps only flow into the time-label
  row of the rendered output.
* `slog` logging calls are no-ops and are omitted.
-/

/-- Go `int(x)` conversion from `float64`: truncation toward zero. -/
def goTrunc (q : ℚ) : Int := if 0 ≤ q then ⌊q⌋ else ⌈q⌉

/-- Go `strings.Repeat(s, n)` for a single-character `s`:
panics (`none`) when `n < 0`. -/
def goStringsRepeat (c : Char) (n : Int) : Option (List Char) :=
  if n < 0 then none else some (List.replicate n.toNat c)

/-- Go slice expression `s[:n]`: panics (`none`) when `n` is out of
range. -/
def goTake (s : List Char) (n : Int) : Option (List Char) :=
  if n < 0 ∨ (s.length : Int) < n then none else some (s.take n.toNat)

/-- Go `fmt.Sprintf("%8s", s)`-style padding: left-pad with spaces to the
given width, leaving longer strings untouched. -/
def goPad (w : Nat) (s : List Char) : List Char :=
  List.replicate (w - s.length) ' ' ++ s

/-- The decimal digit character for `d < 10`. -/
def digitChar (d : Nat) : Char := Char.ofNat (48 + d)

/-- Decimal digits of a natural number, most significant first
(fuel-structural so that it reduces in the kernel; the fuel `n + 1`
always suffices because the argument shrinks by a factor of ten each
step). -/
def natDigitsAux : Nat → Nat → List Char
  | 0, _ => []
  | fuel + 1, n =>
    if n < 10 then [digitChar n]
    else natDigitsAux fuel (n / 10) ++ [digitChar (n % 10)]

/-- Decimal digits of a natural number, most significant first. -/
def natDigits (n : Nat) : List Char := natDigitsAux (n + 1) n

/-- Left-pad a digit string with `'0'` to length at least `k`. -/
def padZeros (k : Nat) (s : List Char) : List Char :=
  List.replicate (k - s.length) '0' ++ s

/-- Round a nonnegative rational to the nearest integer, ties to even.
This is the rounding Go's `strconv`/`fmt` fixed-precision float
formatting performs on the exact value of the argument. -/
def roundHalfEven (q : ℚ) : Nat :=
  let fl := ⌊q⌋
  let fr := q - (fl : ℚ)
  (if fr < 1/2 then fl
   else if 1/2 < fr then fl + 1
   else if fl % 2 = 0 then fl else fl + 1).toNat

/-- Go `fmt.Sprintf("%.<prec>f", q)` on the exact value `q`: round to
`prec` decimals (ties to even), render sign, integer part, and — when
`prec > 0` — a decimal point followed by exactly `prec` digits. -/
def goFmtF (prec : Nat) (q : ℚ) : List Char :=
  let sign := if q < 0 then ['-'] else ([] : List Char)
  let n := roundHalfEven (|q| * ((10 ^ prec : ℕ) : ℚ))
  if prec = 0 then sign ++ natDigits n
  else
    let ds := padZeros (prec + 1) (natDigits n)
    sign ++ ds.take (ds.length - prec) ++ '.' :: ds.drop (ds.length - prec)

/-- `ChartData` holds time-series data for charts (view.go). -/
structure ChartData where
  timestamps : List Nat
  values : List ℚ
  maxSize : Nat
deriving DecidableEq

/-- `NewChartData` creates new chart data storage (view.go). -/
def NewChartData (maxSize : Nat) : ChartData :=
  { timestamps := [], values := [], maxSize := maxSize }

/-- `ChartData.Add` adds a new data point (view.go): append the clock
value and the sample, then drop the oldest pair if the buffer now
exceeds `maxSize`. -/
def ChartData.Add (cd : ChartData) (t : Nat) (value : ℚ) : ChartData :=
  let timestamps := cd.timestamps ++ [t]
  let values := cd.values ++ [value]
  if values.length > cd.maxSize then
    { cd with timestamps := timestamps.tail, values := values.tail }
  else
    { cd with timestamps := timestamps, values := values }

/-- `Chart` represents a time-series chart (charts.go). -/
structure Chart where
  title : List Char
  data : ChartData
  width : Int
  height : Int
  minValue : ℚ
  maxValue : ℚ
  autoScale : Bool
  unit : List Char
  color : List Char
deriving DecidableEq

/-- `NewChart` creates a new chart (charts.go); unset numeric fields get
Go zero values. -/
def NewChart (title : List Char) (maxDataPoints : Nat) (unit color : List Char) : Chart :=
  { title := title, data := NewChartData maxDataPoints, width := 0, height := 0,
    minValue := 0, maxValue := 0, autoScale := true, unit := unit, color := color }

/-- `Chart.SetSize` sets the chart dimensions (charts.go). -/
def Chart.SetSize (c : Chart) (width height : Int) : Chart :=
  { c with width := width, height := height }

/-- `Chart.SetScale` sets manual scale for the chart (charts.go). -/
def Chart.SetScale (c : Chart) (mn mx : ℚ) : Chart :=
  { c with minValue := mn, maxValue := mx, autoScale := false }

/-- `Chart.AddValue` adds a new value to the chart (charts.go), with the
explicit clock argument of the `ChartData.Add` model. -/
def Chart.AddValue (c : Chart) (t : Nat) (value : ℚ) : Chart :=
  { c with data := c.data.Add t value }

/-- `c.data.values[i]` for an `int` index.  Go panics when the index is
out of range; every call site below guarantees the index is in range, so
the default value of the total model is never observed. -/
def Chart.dataValue (c : Chart) (i : Int) : ℚ := c.data.values.getD i.toNat 0

/-- `Chart.calculateBounds` (charts.go): manual bounds verbatim when
autoscale is off; otherwise min/max of all buffered values, widened by
`±0.5` when the range is below `0.001`, else padded by 10% of the range.
The single Go loop computing min and max together is rendered as two
folds over the same list with the same initial element. -/
def Chart.calculateBounds (c : Chart) : ℚ × ℚ :=
  if !c.autoScale then (c.minValue, c.maxValue)
  else
    match c.data.values with
    | [] => (0, 1)
    | v0 :: rest =>
      let mn := (v0 :: rest).foldl (fun m v => if v < m then v else m) v0
      let mx := (v0 :: rest).foldl (fun m v => if m < v then v else m) v0
      let range_ := mx - mn
      if range_ < 1/1000 then (mn - 1/2, mx + 1/2)
      else (mn - range_ * (1/10), mx + range_ * (1/10))

/-- `valueToY` (charts.go) converts a value to a Y coordinate:
`height/2` on a degenerate range, otherwise linear interpolation
(largest value on top), truncated to `int` and clamped to
`[0, height-1]`. -/
def valueToY (value mn mx : ℚ) (height : Int) : Int :=
  if mx ≤ mn then Int.tdiv height 2
  else
    let normalized := (value - mn) / (mx - mn)
    let y := goTrunc (((height - 1 : Int) : ℚ) * (1 - normalized))
    let y1 := if y < 0 then 0 else y
    if y1 ≥ height then height - 1 else y1

/-- `Chart.getPlotChar` (charts.go): `'*'` for the most recent data
point, else `'/'` (peak) or `'\'` (valley) for an interior sample
strictly above/below both neighbours, else `'o'`. -/
def Chart.getPlotChar (c : Chart) (dataIdx y height : Int) (mn mx : ℚ) : Char :=
  if dataIdx = (c.data.values.length : Int) - 1 then '*'
  else if 0 < dataIdx ∧ dataIdx < (c.data.values.length : Int) - 1 then
    let prev := c.dataValue (dataIdx - 1)
    let next := c.dataValue (dataIdx + 1)
    let prevY := valueToY prev mn mx height
    let nextY := valueToY next mn mx height
    if y < prevY ∧ y < nextY then '/'
    else if prevY < y ∧ nextY < y then '\\'
    else 'o'
  else 'o'

/-- `Chart.formatValue` (charts.go): precision by magnitude, suffixed
with the unit. -/
def Chart.formatValue (c : Chart) (value : ℚ) : List Char :=
  let absValue := |value|
  if absValue ≥ 1000 then goFmtF 0 value ++ c.unit
  else if absValue ≥ 10 then goFmtF 1 value ++ c.unit
  else if absValue ≥ 1 then goFmtF 2 value ++ c.unit
  else goFmtF 3 value ++ c.unit

/-- `Add` preserves the capacity field. -/
theorem ChartData.Add_maxSize (cd : ChartData) (t : Nat) (v : ℚ) :
    (cd.Add t v).maxSize = cd.maxSize := by
  unfold ChartData.Add
  dsimp only
  split <;> rfl

/-- `Add` below capacity: plain append of the values. -/
theorem ChartData.Add_values_of_le (cd : ChartData) (t : Nat) (v : ℚ)
    (h : cd.values.length + 1 ≤ cd.maxSize) :
    (cd.Add t v).values = cd.values ++ [v] := by
  unfold ChartData.Add
  dsimp only
  rw [if_neg (by simp; omega)]

/-- `Add` below capacity: plain append of the timestamps. -/
theorem ChartData.Add_timestamps_of_le (cd : ChartData) (t : Nat) (v : ℚ)
    (h : cd.values.length + 1 ≤ cd.maxSize) :
    (cd.Add t v).timestamps = cd.timestamps ++ [t] := by
  unfold ChartData.Add
  dsimp only
  rw [if_neg (by simp; omega)]

/-- `Add` at capacity: append the value, then evict the oldest. -/
theorem ChartData.Add_values_of_gt (cd : ChartData) (t : Nat) (v : ℚ)
    (h : cd.maxSize < cd.values.length + 1) :
    (cd.Add t v).values = (cd.values ++ [v]).tail := by
  unfold ChartData.Add
  dsimp only
  rw [if_pos (by simp; omega)]

/-- `Add` at capacity: append the timestamp, then evict the oldest. -/
theorem ChartData.Add_timestamps_of_gt (cd : ChartData) (t : Nat) (v : ℚ)
    (h : cd.maxSize < cd.values.length + 1) :
    (cd.Add t v).timestamps = (cd.timestamps ++ [t]).tail := by
  unfold ChartData.Add
  dsimp only
  rw [if_pos (by simp; omega)]

/-- The state of a buffer after a sequence of `Add` calls, starting from
a fresh buffer of capacity `C ≥ 1`: the buffer keeps exactly the last
`min N C` appended pairs, in order.  Shared helper for the retention and
window-sliding claims. -/
theorem foldAdd_spec (C : Nat) (hC : 1 ≤ C) (pts : List (Nat × ℚ)) :
    (pts.foldl (fun b p => ChartData.Add b p.1 p.2) (NewChartData C)).maxSize = C ∧
    (pts.foldl (fun b p => ChartData.Add b p.1 p.2) (NewChartData C)).values
      = (pts.map Prod.snd).drop (pts.length - C) ∧
    (pts.foldl (fun b p => ChartData.Add b p.1 p.2) (NewChartData C)).timestamps
      = (pts.map Prod.fst).drop (pts.length - C) := by
  induction pts using List.reverseRecOn with
  | nil => simp [NewChartData]
  | append_singleton l p ih =>
    obtain ⟨ihM, ihV, ihT⟩ := ih
    rw [List.foldl_append]
    simp only [List.foldl_cons, List.foldl_nil]
    generalize hF : List.foldl (fun b p => ChartData.Add b p.1 p.2) (NewChartData C) l = F
      at ihM ihV ihT
    have hVlen : F.values.length = l.length - (l.length - C) := by
      rw [ihV]
      simp
    have hTlen : F.timestamps.length = l.length - (l.length - C) := by
      rw [ihT]
      simp
    rcases Nat.lt_or_ge l.length C with hlt | hge
    · rw [ChartData.Add_maxSize, ChartData.Add_values_of_le F p.1 p.2 (by omega),
        ChartData.Add_timestamps_of_le F p.1 p.2 (by omega)]
      refine ⟨ihM, ?_, ?_⟩
      · rw [ihV]
        simp only [List.map_append, List.map_cons, List.map_nil, List.length_append,
          List.length_cons, List.length_nil]
        rw [List.drop_append_of_le_length (by simp; omega)]
        congr 2
        omega
      · rw [ihT]
        simp only [List.map_append, List.map_cons, List.map_nil, List.length_append,
          List.length_cons, List.length_nil]
        rw [List.drop_append_of_le_length (by simp; omega)]
        congr 2
        omega
    · rw [ChartData.Add_maxSize, ChartData.Add_values_of_gt F p.1 p.2 (by omega),
        ChartData.Add_timestamps_of_gt F p.1 p.2 (by omega)]
      refine ⟨ihM, ?_, ?_⟩
      · have hne : (List.map Prod.snd l).drop (l.length - C) ≠ [] := by
          intro hnil
          have hzero := congrArg List.length hnil
          simp at hzero
          omega
        rw [ihV]
        rw [List.tail_append_of_ne_nil hne, List.tail_drop]
        simp only [List.map_append, List.map_cons, List.map_nil, List.length_append,
          List.length_cons, List.length_nil]
        rw [List.drop_append_of_le_length (by simp; omega)]
        congr 2
        omega
      · have hne : (List.map Prod.fst l).drop (l.length - C) ≠ [] := by
          intro hnil
          have hzero := congrArg List.length hnil
          simp at hzero
          omega
        rw [ihT]
        rw [List.tail_append_of_ne_nil hne, List.tail_drop]
        simp only [List.map_append, List.map_cons, List.map_nil, List.length_append,
          List.length_cons, List.length_nil]
        rw [List.drop_append_of_le_length (by simp; omega)]
        congr 2
        omega

/-- C2: for every capacity `C ≥ 1` and every sequence of `N` `Add` calls
on a fresh sample buffer, the buffer length is at most `C` after each
`Add` completes (the statement quantifies over all sequences, hence over
every prefix of a longer sequence), and when `N > C` the buffer retains
exactly the last `C` appended values and their parallel timestamps, in
original append order (strict FIFO eviction of the oldest). -/
theorem bounded_retention (C : Nat) (hC : 1 ≤ C) (pts : List (Nat × ℚ)) :
    (pts.foldl (fun b p => ChartData.Add b p.1 p.2) (NewChartData C)).values.length ≤ C ∧
    (C < pts.length →
      (pts.foldl (fun b p => ChartData.Add b p.1 p.2) (NewChartData C)).values
          = (pts.map Prod.snd).drop (pts.length - C) ∧
      (pts.foldl (fun b p => ChartData.Add b p.1 p.2) (NewChartData C)).timestamps
          = (pts.map Prod.fst).drop (pts.length - C) ∧
      (pts.foldl (fun b p => ChartData.Add b p.1 p.2) (NewChartData C)).values.length = C) := by
  obtain ⟨hM, hV, hT⟩ := foldAdd_spec C hC pts
  refine ⟨?_, fun hN => ⟨hV, hT, ?_⟩⟩ <;> rw [hV] <;> simp <;> omega

/-- Witness for C2 at `C = 2` and three appends: the buffer keeps the
last two pairs. -/
theorem bounded_retention_witness :
    1 ≤ 2 ∧ 2 < ([((0:Nat), (10:ℚ)), (1, 20), (2, 30)] : List (Nat × ℚ)).length ∧
    ([((0:Nat), (10:ℚ)), (1, 20), (2, 30)].foldl (fun b p => ChartData.Add b p.1 p.2)
        (NewChartData 2)).values = [(20:ℚ), 30] := by
  refine ⟨by decide, by decide, ?_⟩
  have h := (bounded_retention 2 (by decide)
    ([((0:Nat), (10:ℚ)), (1, 20), (2, 30)])).2 (by decide)
  rw [h.1]
  decide

/-- The Go minimum-accumulation step equals `min`. -/
theorem goFoldMin_eq (l : List ℚ) : ∀ a : ℚ,
    l.foldl (fun m v => if v < m then v else m) a = l.foldl min a := by
  induction l with
  | nil => intro a; rfl
  | cons x xs ih =>
    intro a
    simp only [List.foldl_cons]
    rw [ih]
    congr 1
    rcases lt_or_le x a with h | h
    · rw [if_pos h, min_eq_right (le_of_lt h)]
    · rw [if_neg (not_lt.mpr h), min_eq_left h]

/-- The Go maximum-accumulation step equals `max`. -/
theorem goFoldMax_eq (l : List ℚ) : ∀ a : ℚ,
    l.foldl (fun m v => if m < v then v else m) a = l.foldl max a := by
  induction l with
  | nil => intro a; rfl
  | cons x xs ih =>
    intro a
    simp only [List.foldl_cons]
    rw [ih]
    congr 1
    rcases lt_or_le a x with h | h
    · rw [if_pos h, max_eq_right (le_of_lt h)]
    · rw [if_neg (not_lt.mpr h), max_eq_left h]

theorem foldl_min_le_init (l : List ℚ) : ∀ a : ℚ, l.foldl min a ≤ a := by
  induction l with
  | nil => intro a; simp
  | cons x xs ih =>
    intro a
    simp only [List.foldl_cons]
    exact le_trans (ih _) (min_le_left _ _)

theorem init_le_foldl_max (l : List ℚ) : ∀ a : ℚ, a ≤ l.foldl max a := by
  induction l with
  | nil => intro a; simp
  | cons x xs ih =>
    intro a
    simp only [List.foldl_cons]
    exact le_trans (le_max_left _ _) (ih _)

theorem foldl_min_le_mem (l : List ℚ) : ∀ a x : ℚ, x ∈ l → l.foldl min a ≤ x := by
  induction l with
  | nil =>
    intro a x hx
    cases hx
  | cons y ys ih =>
    intro a x hx
    simp only [List.foldl_cons]
    rcases List.mem_cons.mp hx with rfl | hx2
    · exact le_trans (foldl_min_le_init ys _) (min_le_right _ _)
    · exact ih _ _ hx2

theorem mem_le_foldl_max (l : List ℚ) : ∀ a x : ℚ, x ∈ l → x ≤ l.foldl max a := by
  induction l with
  | nil =>
    intro a x hx
    cases hx
  | cons y ys ih =>
    intro a x hx
    simp only [List.foldl_cons]
    rcases List.mem_cons.mp hx with rfl | hx2
    · exact le_trans (le_max_right _ _) (init_le_foldl_max ys _)
    · exact ih _ _ hx2

theorem foldl_min_mem (l : List ℚ) : ∀ a : ℚ, l.foldl min a = a ∨ l.foldl min a ∈ l := by
  induction l with
  | nil =>
    intro a
    left
    rfl
  | cons x xs ih =>
    intro a
    simp only [List.foldl_cons]
    rcases ih (min a x) with h | h
    · rcases le_or_lt a x with hax | hax
      · left
        rw [h, min_eq_left hax]
      · right
        rw [h, min_eq_right (le_of_lt hax)]
        exact List.mem_cons_self x xs
    · right
      exact List.mem_cons_of_mem x h

theorem foldl_max_mem (l : List ℚ) : ∀ a : ℚ, l.foldl max a = a ∨ l.foldl max a ∈ l := by
  induction l with
  | nil =>
    intro a
    left
    rfl
  | cons x xs ih =>
    intro a
    simp only [List.foldl_cons]
    rcases ih (max a x) with h | h
    · rcases le_or_lt x a with hax | hax
      · left
        rw [h, max_eq_left hax]
      · right
        rw [h, max_eq_right (le_of_lt hax)]
        exact List.mem_cons_self x xs
    · right
      exact List.mem_cons_of_mem x h

theorem foldl_min_replicate (k : Nat) (v : ℚ) : (List.replicate k v).foldl min v = v := by
  induction k with
  | zero => rfl
  | succ n ih => simp [List.replicate_succ, List.foldl_cons, min_self, ih]

theorem foldl_max_replicate (k : Nat) (v : ℚ) : (List.replicate k v).foldl max v = v := by
  induction k with
  | zero => rfl
  | succ n ih => simp [List.replicate_succ, List.foldl_cons, max_self, ih]

/-- `calculateBounds` in autoscale mode, on a non-empty buffer, in terms
of the mathematical minimum and maximum of the buffered values. -/
theorem calculateBounds_auto (c : Chart) (hAuto : c.autoScale = true)
    (v0 : ℚ) (rest : List ℚ) (hvals : c.data.values = v0 :: rest) :
    c.calculateBounds =
      (if rest.foldl max v0 - rest.foldl min v0 < 1/1000 then
        (rest.foldl min v0 - 1/2, rest.foldl max v0 + 1/2)
      else
        (rest.foldl min v0 - (rest.foldl max v0 - rest.foldl min v0) * (1/10),
         rest.foldl max v0 + (rest.foldl max v0 - rest.foldl min v0) * (1/10))) := by
  unfold Chart.calculateBounds
  rw [hAuto, hvals]
  simp only [Bool.not_true, Bool.false_eq_true, if_false]
  simp only [goFoldMin_eq, goFoldMax_eq, List.foldl_cons, min_self, max_self, ite_self]

/-- A demo chart holding the given buffer, with the capacity 120 and the
metadata the application uses for the power chart (view.go). -/
def mkDemoChart (vals : List ℚ) : Chart :=
  { title := "Power".toList,
    data := { timestamps := List.replicate vals.length 0, values := vals, maxSize := 120 },
    width := 80, height := 20, minValue := 0, maxValue := 0, autoScale := true,
    unit := "W".toList, color := "green".toList }

/-- C4: with autoscale on, a buffer of `N ≥ 1` identical values `v`
yields bounds `(v - 0.5, v + 0.5)` (so `max - min = 1 ≥ 1.0`); in
general, on a non-empty buffer the computed `min`/`max` are the true
minimum and maximum of the buffered values, and the bounds are the
`±0.5` widening when the observed range is below `0.001`, else the
10%-of-range padding of both ends. -/
theorem flat_data_fallback :
    (∀ (c : Chart) (n : Nat) (v : ℚ), c.autoScale = true → 1 ≤ n →
      c.data.values = List.replicate n v →
      c.calculateBounds = (v - 1/2, v + 1/2) ∧
      (c.calculateBounds).2 - (c.calculateBounds).1 = 1) ∧
    (∀ (c : Chart) (v0 : ℚ) (rest : List ℚ), c.autoScale = true →
      c.data.values = v0 :: rest →
      (rest.foldl min v0 ∈ c.data.values ∧ ∀ x ∈ c.data.values, rest.foldl min v0 ≤ x) ∧
      (rest.foldl max v0 ∈ c.data.values ∧ ∀ x ∈ c.data.values, x ≤ rest.foldl max v0) ∧
      (rest.foldl max v0 - rest.foldl min v0 < 1/1000 →
        c.calculateBounds = (rest.foldl min v0 - 1/2, rest.foldl max v0 + 1/2)) ∧
      (1/1000 ≤ rest.foldl max v0 - rest.foldl min v0 →
        c.calculateBounds = (rest.foldl min v0 - (rest.foldl max v0 - rest.foldl min v0) * (1/10),
          rest.foldl max v0 + (rest.foldl max v0 - rest.foldl min v0) * (1/10)))) := by
  constructor
  · intro c n v hAuto hn hvals
    cases n with
    | zero => omega
    | succ m =>
      rw [List.replicate_succ] at hvals
      rw [calculateBounds_auto c hAuto v (List.replicate m v) hvals]
      rw [foldl_min_replicate, foldl_max_replicate]
      rw [if_pos (by norm_num)]
      constructor
      · rfl
      · ring
  · intro c v0 rest hAuto hvals
    refine ⟨⟨?_, ?_⟩, ⟨?_, ?_⟩, ?_, ?_⟩
    · rw [hvals]
      rcases foldl_min_mem rest v0 with h | h
      · rw [h]
        exact List.mem_cons_self v0 rest
      · exact List.mem_cons_of_mem v0 h
    · intro x hx
      rw [hvals] at hx
      rcases List.mem_cons.mp hx with rfl | hx2
      · exact foldl_min_le_init rest x
      · exact foldl_min_le_mem rest v0 x hx2
    · rw [hvals]
      rcases foldl_max_mem rest v0 with h | h
      · rw [h]
        exact List.mem_cons_self v0 rest
      · exact List.mem_cons_of_mem v0 h
    · intro x hx
      rw [hvals] at hx
      rcases List.mem_cons.mp hx with rfl | hx2
      · exact init_le_foldl_max rest x
      · exact mem_le_foldl_max rest v0 x hx2
    · intro hflat
      rw [calculateBounds_auto c hAuto v0 rest hvals, if_pos hflat]
    · intro hwide
      rw [calculateBounds_auto c hAuto v0 rest hvals, if_neg (not_lt.mpr hwide)]

/-- Witness for C4: three identical values 7 give bounds (6.5, 7.5). -/
theorem flat_data_fallback_witness :
    (mkDemoChart (List.replicate 3 7)).autoScale = true ∧ 1 ≤ 3 ∧
    (mkDemoChart (List.replicate 3 7)).data.values = List.replicate 3 (7:ℚ) ∧
    (mkDemoChart (List.replicate 3 7)).calculateBounds = (7 - 1/2, 7 + 1/2) := by
  refine ⟨rfl, by decide, rfl, ?_⟩
  exact (flat_data_fallback.1 (mkDemoChart (List.replicate 3 7)) 3 7 rfl (by decide) rfl).1

/-- Pre-append chart for the bounds-monotonicity counterexample: a
single buffered value 0; the claimed property fails on appending 0.01. -/
def c6pre : Chart := mkDemoChart [0]

/-- Counterexample to C6 as stated: with autoscale on and buffer `[0]`,
the value `0.01` is strictly greater than the current maximum `0`, yet
appending it makes the computed upper bound drop from `0.5` (flat-data
widening) to `0.011` (10% padding of the new range `0.01`). -/
theorem bounds_monotonicity_counterexample :
    c6pre.data.values = [(0:ℚ)] ∧ (0:ℚ) < 1/100 ∧
    (c6pre.calculateBounds).2 = 1/2 ∧
    ((c6pre.AddValue 1 (1/100)).calculateBounds).2 = 11/1000 ∧
    ((c6pre.AddValue 1 (1/100)).calculateBounds).2 < (c6pre.calculateBounds).2 := by
  have h1 : (c6pre.calculateBounds).2 = 1/2 := by
    rw [calculateBounds_auto c6pre rfl 0 [] rfl]
    norm_num
  have h2 : ((c6pre.AddValue 1 (1/100)).calculateBounds).2 = 11/1000 := by
    rw [calculateBounds_auto (c6pre.AddValue 1 (1/100)) rfl 0 [1/100] rfl]
    rw [if_neg (by norm_num [List.foldl])]
    norm_num [List.foldl]
  refine ⟨rfl, by norm_num, h1, h2, ?_⟩
  rw [h1, h2]
  norm_num

/-- C6 (amended): with autoscale on, a non-empty buffer strictly below
capacity (so no eviction occurs) whose observed range is already at
least `0.001`, appending a value strictly greater than the current
maximum strictly increases the computed upper bound on the next render.
(As stated the claim is false: the flat-data `±0.5` widening can give a
pre-append upper bound larger than the padded post-append one, and
eviction of the minimum can shrink the range; see the
counterexample.) -/
theorem bounds_monotone_upper_amended (c : Chart) (t : Nat) (v v0 : ℚ) (rest : List ℚ)
    (hAuto : c.autoScale = true)
    (hvals : c.data.values = v0 :: rest)
    (hcap : c.data.values.length < c.data.maxSize)
    (hrange : 1/1000 ≤ rest.foldl max v0 - rest.foldl min v0)
    (hgt : rest.foldl max v0 < v) :
    (c.calculateBounds).2 < ((c.AddValue t v).calculateBounds).2 := by
  have hm_le : rest.foldl min v0 ≤ v0 := foldl_min_le_init rest v0
  have hM_ge : v0 ≤ rest.foldl max v0 := init_le_foldl_max rest v0
  have hvals2 : (c.AddValue t v).data.values = v0 :: (rest ++ [v]) := by
    show (c.data.Add t v).values = _
    rw [ChartData.Add_values_of_le c.data t v (by omega), hvals]
    simp
  have hmax2 : (rest ++ [v]).foldl max v0 = v := by
    rw [List.foldl_append]
    simp only [List.foldl_cons, List.foldl_nil]
    exact max_eq_right (le_of_lt hgt)
  have hmin2 : (rest ++ [v]).foldl min v0 = rest.foldl min v0 := by
    rw [List.foldl_append]
    simp only [List.foldl_cons, List.foldl_nil]
    exact min_eq_left (le_trans (le_trans hm_le hM_ge) (le_of_lt hgt))
  rw [calculateBounds_auto c hAuto v0 rest hvals, if_neg (not_lt.mpr hrange)]
  rw [calculateBounds_auto (c.AddValue t v) hAuto v0 (rest ++ [v]) hvals2]
  rw [hmax2, hmin2, if_neg (not_lt.mpr (by linarith))]
  dsimp only
  linarith

/-- Witness for C6 (amended) at buffer `[0, 1]`, appending 2: the upper
bound rises from 1.1 to 2.2. -/
theorem bounds_monotone_upper_amended_witness :
    (mkDemoChart [0, 1]).autoScale = true ∧
    (mkDemoChart [0, 1]).data.values = (0:ℚ) :: [1] ∧
    (mkDemoChart [0, 1]).data.values.length < (mkDemoChart [0, 1]).data.maxSize ∧
    1/1000 ≤ ([(1:ℚ)]).foldl max 0 - ([(1:ℚ)]).foldl min 0 ∧
    ([(1:ℚ)]).foldl max 0 < 2 ∧
    ((mkDemoChart [0, 1]).calculateBounds).2 < (((mkDemoChart [0, 1]).AddValue 9 2).calculateBounds).2 := by
  refine ⟨rfl, rfl, by decide, by norm_num [List.foldl], by norm_num [List.foldl], ?_⟩
  exact bounds_monotone_upper_amended (mkDemoChart [0, 1]) 9 2 0 [1] rfl rfl (by decide)
    (by norm_num [List.foldl]) (by norm_num [List.foldl])

/-- C7 (amended): after `SetScale(min, max)` the bounds calculation
returns the given bounds verbatim — for every `min`, `max`, with no
validation of `min` against `max` — and for `min ≥ max` the
degenerate-range fallback that applies at render time is the guard in
the value-to-row mapping (`valueToY` maps every value to `height/2`),
not the `±0.5` widening of the bounds calculation (which is reached only
in autoscale mode; see the counterexample). -/
theorem setScale_verbatim :
    (∀ (c : Chart) (mn mx : ℚ), (c.SetScale mn mx).calculateBounds = (mn, mx)) ∧
    (∀ (value mn mx : ℚ) (height : Int), mx ≤ mn →
      valueToY value mn mx height = Int.tdiv height 2) := by
  constructor
  · intro c mn mx
    unfold Chart.calculateBounds Chart.SetScale
    simp
  · intro value mn mx height h
    unfold valueToY
    rw [if_pos h]

/-- Chart for the `SetScale` counterexample. -/
def c7demo : Chart := mkDemoChart [3]

/-- Counterexample to C7 as stated: after `SetScale(5, 5)` (with
`min ≥ max`) the bounds calculation returns `(5, 5)` verbatim — the
`±0.5` symmetric widening does not apply, so the bounds are not
`(4.5, 5.5)`; the render-time fallback is instead `valueToY` sending
every value to row `height/2` (here `6/2 = 3`). -/
theorem setScale_widening_counterexample :
    (c7demo.SetScale 5 5).calculateBounds = (5, 5) ∧
    (c7demo.SetScale 5 5).calculateBounds ≠ ((9:ℚ)/2, (11:ℚ)/2) ∧
    valueToY 3 5 5 6 = 3 := by
  refine ⟨rfl, ?_, ?_⟩
  · intro h
    have h5 := congrArg Prod.fst h
    norm_num [c7demo, mkDemoChart, Chart.SetScale, Chart.calculateBounds] at h5
  · unfold valueToY
    rw [if_pos (le_refl (5:ℚ))]
    decide

/-- Witness for C7: `SetScale(2, 9)` gives bounds `(2, 9)` verbatim, and
`valueToY` under an equal-bounds pair returns `height/2`. -/
theorem setScale_verbatim_witness :
    (7:ℚ) ≤ 7 ∧
    ((mkDemoChart []).SetScale 2 9).calculateBounds = (2, 9) ∧
    valueToY 4 7 7 9 = Int.tdiv 9 2 := by
  refine ⟨le_refl 7, ?_, ?_⟩
  · exact setScale_verbatim.1 (mkDemoChart []) 2 9
  · exact setScale_verbatim.2 4 7 7 9 (le_refl 7)

/-- Chart for the glyph-selection scenario: buffer `[1, 5, 1]`. -/
def c5demo : Chart := mkDemoChart [1, 5, 1]

/-- C5: the newest sample (last index) always receives the `'*'` marker,
checked before the peak/valley tests; concretely, for buffer `[1, 5, 1]`
rendered into a 3-row plot area with the autoscaled bounds, the middle
sample (value 5) at its plotted row gets the peak glyph `'/'` and the
final sample (value 1, the newest) gets `'*'`, not the valley glyph. -/
theorem glyph_newest_precedence :
    (∀ (c : Chart) (y height : Int) (mn mx : ℚ),
      c.getPlotChar ((c.data.values.length : Int) - 1) y height mn mx = '*') ∧
    (c5demo.getPlotChar 1 (valueToY 5 (c5demo.calculateBounds).1 (c5demo.calculateBounds).2 3) 3
        (c5demo.calculateBounds).1 (c5demo.calculateBounds).2 = '/' ∧
      c5demo.getPlotChar 2 (valueToY 1 (c5demo.calculateBounds).1 (c5demo.calculateBounds).2 3) 3
        (c5demo.calculateBounds).1 (c5demo.calculateBounds).2 = '*') := by
  have hb : c5demo.calculateBounds = (3/5, 27/5) := by
    rw [calculateBounds_auto c5demo rfl 1 [5, 1] rfl]
    rw [if_neg (by norm_num [List.foldl])]
    norm_num [List.foldl]
  have hy5 : valueToY 5 (3/5) (27/5) 3 = 0 := by
    norm_num [valueToY, goTrunc]
  have hy1 : valueToY 1 (3/5) (27/5) 3 = 1 := by
    norm_num [valueToY, goTrunc]
  refine ⟨?_, ?_, ?_⟩
  · intro c y height mn mx
    unfold Chart.getPlotChar
    rw [if_pos rfl]
  · rw [hb]
    dsimp only
    rw [hy5]
    unfold Chart.getPlotChar
    rw [if_neg (by decide : ¬ ((1:ℤ) = (c5demo.data.values.length : Int) - 1))]
    rw [if_pos (by decide : (0:ℤ) < 1 ∧ (1:ℤ) < (c5demo.data.values.length : Int) - 1)]
    dsimp only
    have hprev : c5demo.dataValue (1 - 1) = 1 := rfl
    have hnext : c5demo.dataValue (1 + 1) = 1 := rfl
    rw [hprev, hnext, hy1]
    rw [if_pos (by decide : (0:ℤ) < 1 ∧ (0:ℤ) < 1)]
  · rw [hb]
    dsimp only
    unfold Chart.getPlotChar
    rw [if_pos (by decide : (2:ℤ) = (c5demo.data.values.length : Int) - 1)]

/-- The precision-by-magnitude rule as the claim words it (reference
definition for comparison with the source's `formatValue` switch). -/
def claimPrecision (a : ℚ) : Nat :=
  if a ≥ 1000 then 0 else if a ≥ 10 then 1 else if a ≥ 1 then 2 else 3

/-- `formatValue` of the exact value 1234.5 with unit `"W"`: Go's
`%.0f` rounds the tie 1234.5 to the even neighbour 1234. -/
theorem formatValue_at_midpoint :
    (mkDemoChart []).formatValue (12345/10) = "1234W".toList := by
  have h : roundHalfEven (|(12345/10 : ℚ)| * ((10 ^ 0 : ℕ) : ℚ)) = 1234 := by
    rw [abs_of_nonneg (by norm_num)]
    norm_num [roundHalfEven]
    decide
  have hf : goFmtF 0 (12345/10) = "1234".toList := by
    simp only [goFmtF, h, if_pos rfl]
    rw [if_neg (by norm_num : ¬ (12345/10 : ℚ) < 0)]
    decide
  unfold Chart.formatValue
  dsimp only
  rw [if_pos (by norm_num [abs_of_nonneg] : |(12345/10 : ℚ)| ≥ 1000), hf]
  decide

/-- C9 (amended): `formatValue` selects the precision exactly per the
magnitude thresholds of the claim and suffixes the unit; the concrete
scenarios hold except that `formatValue(1234.5)` is `"1234W"`, since
Go's fixed-precision formatting rounds the exact tie 1234.5 half to
even. -/
theorem value_formatting :
    (∀ (c : Chart) (v : ℚ), c.formatValue v = goFmtF (claimPrecision |v|) v ++ c.unit) ∧
    (mkDemoChart []).formatValue (12345/10) = "1234W".toList ∧
    (mkDemoChart []).formatValue (1234/100) = "12.3W".toList ∧
    (mkDemoChart []).formatValue (1234/1000) = "1.23W".toList ∧
    (mkDemoChart []).formatValue (1234/10000) = "0.123W".toList := by
  refine ⟨?_, formatValue_at_midpoint, ?_, ?_, ?_⟩
  · intro c v
    unfold Chart.formatValue claimPrecision
    dsimp only
    split_ifs <;> rfl
  · have h : roundHalfEven (|(1234/100 : ℚ)| * ((10 ^ 1 : ℕ) : ℚ)) = 123 := by
      rw [abs_of_nonneg (by norm_num)]
      norm_num [roundHalfEven]
      decide
    have hf : goFmtF 1 (1234/100) = "12.3".toList := by
      simp only [goFmtF, h]
      rw [if_neg (by norm_num : ¬ (1:ℕ) = 0)]
      rw [if_neg (by norm_num : ¬ (1234/100 : ℚ) < 0)]
      decide
    unfold Chart.formatValue
    dsimp only
    rw [if_neg (by norm_num [abs_of_nonneg] : ¬ |(1234/100 : ℚ)| ≥ 1000)]
    rw [if_pos (by norm_num [abs_of_nonneg] : |(1234/100 : ℚ)| ≥ 10), hf]
    decide
  · have h : roundHalfEven (|(1234/1000 : ℚ)| * ((10 ^ 2 : ℕ) : ℚ)) = 123 := by
      rw [abs_of_nonneg (by norm_num)]
      norm_num [roundHalfEven]
      decide
    have hf : goFmtF 2 (1234/1000) = "1.23".toList := by
      simp only [goFmtF, h]
      rw [if_neg (by norm_num : ¬ (2:ℕ) = 0)]
      rw [if_neg (by norm_num : ¬ (1234/1000 : ℚ) < 0)]
      decide
    unfold Chart.formatValue
    dsimp only
    rw [if_neg (by norm_num [abs_of_nonneg] : ¬ |(1234/1000 : ℚ)| ≥ 1000)]
    rw [if_neg (by norm_num [abs_of_nonneg] : ¬ |(1234/1000 : ℚ)| ≥ 10)]
    rw [if_pos (by norm_num [abs_of_nonneg] : |(1234/1000 : ℚ)| ≥ 1), hf]
    decide
  · have h : roundHalfEven (|(1234/10000 : ℚ)| * ((10 ^ 3 : ℕ) : ℚ)) = 123 := by
      rw [abs_of_nonneg (by norm_num)]
      norm_num [roundHalfEven]
      decide
    have hf : goFmtF 3 (1234/10000) = "0.123".toList := by
      simp only [goFmtF, h]
      rw [if_neg (by norm_num : ¬ (3:ℕ) = 0)]
      rw [if_neg (by norm_num : ¬ (1234/10000 : ℚ) < 0)]
      decide
    unfold Chart.formatValue
    dsimp only
    rw [if_neg (by norm_num [abs_of_nonneg] : ¬ |(1234/10000 : ℚ)| ≥ 1000)]
    rw [if_neg (by norm_num [abs_of_nonneg] : ¬ |(1234/10000 : ℚ)| ≥ 10)]
    rw [if_neg (by norm_num [abs_of_nonneg] : ¬ |(1234/10000 : ℚ)| ≥ 1)]
    rw [hf]
    decide

/-- Counterexample to C9 as stated: `formatValue(1234.5)` with unit
`"W"` returns `"1234W"`, not the claimed `"1235W"`. -/
theorem value_formatting_counterexample :
    (mkDemoChart []).formatValue (12345/10) = "1234W".toList ∧
    (mkDemoChart []).formatValue (12345/10) ≠ "1235W".toList := by
  refine ⟨formatValue_at_midpoint, ?_⟩
  rw [formatValue_at_midpoint]
  decide

/-- `Chart.calculateVisibleDataRange` (charts.go): the window of data
indices that fit into the plot width, sliding to the newest samples. -/
def Chart.calculateVisibleDataRange (c : Chart) (chartWidth : Int) : Int × Int :=
  let dataPoints : Int := c.data.values.length
  let startIdx : Int := if dataPoints > chartWidth then dataPoints - chartWidth else 0
  (startIdx, dataPoints)

/-- Number of iterations of the plotting loop in `plotDataPoints`
(charts.go): Go iterates `i` from `startIdx` while `i < endIdx`,
breaking as soon as `x = i - startIdx` reaches `chartWidth`; since `x`
increases by one per iteration, exactly
`min (endIdx - startIdx) chartWidth` iterations run (clamped at 0). -/
def plotCount (startIdx endIdx chartWidth : Int) : Nat :=
  min (endIdx - startIdx).toNat chartWidth.toNat

/-- The data indices the plotting loop visits, in order. -/
def Chart.visibleIndices (c : Chart) (chartWidth : Int) : List Int :=
  let se := c.calculateVisibleDataRange chartWidth
  (List.range (plotCount se.1 se.2 chartWidth)).map (fun k => se.1 + Int.ofNat k)

/-- The buffered values the plotting loop reads, in order: the visible
window of the chart. -/
def Chart.visibleValues (c : Chart) (chartWidth : Int) : List ℚ :=
  (c.visibleIndices chartWidth).map (fun i => c.dataValue i)

/-- General window sliding: when the buffer holds more samples than the
plot width, the visible window is exactly the most recent
`chartWidth` samples. -/
theorem visible_window_general (c : Chart) (w : Int) (hw : 0 < w)
    (hmore : w < (c.data.values.length : Int)) :
    c.calculateVisibleDataRange w = ((c.data.values.length : Int) - w, (c.data.values.length : Int)) ∧
    c.visibleValues w = c.data.values.drop (c.data.values.length - w.toNat) ∧
    (c.visibleValues w).length = w.toNat := by
  have hrange : c.calculateVisibleDataRange w
      = ((c.data.values.length : Int) - w, (c.data.values.length : Int)) := by
    unfold Chart.calculateVisibleDataRange
    dsimp only
    rw [if_pos hmore]
  have hcount : plotCount ((c.data.values.length : Int) - w) (c.data.values.length : Int) w
      = w.toNat := by
    unfold plotCount
    have h1 : ((c.data.values.length : Int) - ((c.data.values.length : Int) - w)) = w := by
      ring
    rw [h1, Nat.min_self]
  have hvals : c.visibleValues w = c.data.values.drop (c.data.values.length - w.toNat) := by
    unfold Chart.visibleValues Chart.visibleIndices
    rw [hrange]
    dsimp only
    rw [hcount]
    have hwle : w.toNat ≤ c.data.values.length := by omega
    refine List.ext_getElem ?_ ?_
    · simp only [List.length_map, List.length_range, List.length_drop]
      omega
    · intro j h1 h2
      simp only [List.getElem_map, List.getElem_range, List.getElem_drop, Int.ofNat_eq_coe]
      unfold Chart.dataValue
      have hidx : (((c.data.values.length : Int) - w) + (j : Int)).toNat
          = c.data.values.length - w.toNat + j := by
        simp only [List.length_map, List.length_range] at h1
        omega
      rw [List.getD_eq_getElem?_getD, hidx]
      have hlt : c.data.values.length - w.toNat + j < c.data.values.length := by
        simp only [List.length_drop] at h2
        omega
      rw [List.getElem?_eq_getElem hlt]
      rfl
  refine ⟨hrange, hvals, ?_⟩
  rw [hvals]
  simp only [List.length_drop]
  omega

/-- Chart wrapping a given buffer, used to state the window-sliding
scenario. -/
def chartWithData (cd : ChartData) : Chart := { mkDemoChart [] with data := cd }

/-- C3: a chart whose capacity-120 buffer has received 200 appends,
rendered with an effective plot width of 40 columns, plots exactly the
last 40 buffered samples — samples 161 through 200 of the original
append sequence; in general, whenever the buffer holds more samples
than the effective width, the visible window is exactly the most recent
effective-width samples. -/
theorem window_sliding :
    (∀ (c : Chart) (w : Int), 0 < w → w < (c.data.values.length : Int) →
      c.calculateVisibleDataRange w
          = ((c.data.values.length : Int) - w, (c.data.values.length : Int)) ∧
      c.visibleValues w = c.data.values.drop (c.data.values.length - w.toNat) ∧
      (c.visibleValues w).length = w.toNat) ∧
    (∀ vs : List ℚ, vs.length = 200 →
      (vs.foldl (fun b v => ChartData.Add b 0 v) (NewChartData 120)).values = vs.drop 80 ∧
      (chartWithData (vs.foldl (fun b v => ChartData.Add b 0 v) (NewChartData 120))).calculateVisibleDataRange 40
          = (80, 120) ∧
      (chartWithData (vs.foldl (fun b v => ChartData.Add b 0 v) (NewChartData 120))).visibleValues 40
          = vs.drop 160) := by
  constructor
  · intro c w hw hmore
    exact visible_window_general c w hw hmore
  · intro vs hlen
    have hfold : vs.foldl (fun b v => ChartData.Add b 0 v) (NewChartData 120)
        = (vs.map (fun v => ((0 : Nat), v))).foldl (fun b p => ChartData.Add b p.1 p.2)
            (NewChartData 120) := by
      rw [List.foldl_map]
    have hspec := foldAdd_spec 120 (by decide) (vs.map (fun v => ((0 : Nat), v)))
    have hvals : (vs.foldl (fun b v => ChartData.Add b 0 v) (NewChartData 120)).values
        = vs.drop 80 := by
      rw [hfold, hspec.2.1]
      simp only [List.map_map, List.length_map]
      rw [hlen]
      have : (vs.map (fun v => ((0 : Nat), v))).map Prod.snd = vs := by
        simp
      simp only [List.map_map] at this
      rw [show ((200:Nat) - 120) = 80 by decide] at *
      exact congrArg (List.drop 80) this
    have hdlen : (chartWithData (vs.foldl (fun b v => ChartData.Add b 0 v)
        (NewChartData 120))).data.values.length = 120 := by
      show (vs.foldl (fun b v => ChartData.Add b 0 v) (NewChartData 120)).values.length = 120
      rw [hvals]
      simp [hlen]
    have hgen := visible_window_general
      (chartWithData (vs.foldl (fun b v => ChartData.Add b 0 v) (NewChartData 120))) 40
      (by decide) (by rw [hdlen]; decide)
    refine ⟨hvals, ?_, ?_⟩
    · rw [hgen.1, hdlen]
      decide
    · rw [hgen.2.1, hdlen]
      show (vs.foldl (fun b v => ChartData.Add b 0 v) (NewChartData 120)).values.drop (120 - 40)
          = vs.drop 160
      rw [hvals, List.drop_drop]

/-- Witness for C3: both the general sliding window (buffer `[3,4,5]`,
width 2) and the 200-append scenario (with 200 zero samples). -/
theorem window_sliding_witness :
    ((0:ℤ) < 2 ∧ (2:ℤ) < ((mkDemoChart [3, 4, 5]).data.values.length : Int) ∧
      (mkDemoChart [3, 4, 5]).visibleValues 2
        = (mkDemoChart [3, 4, 5]).data.values.drop
            ((mkDemoChart [3, 4, 5]).data.values.length - (2:ℤ).toNat)) ∧
    ((List.replicate 200 (0:ℚ)).length = 200 ∧
      (chartWithData ((List.replicate 200 (0:ℚ)).foldl (fun b v => ChartData.Add b 0 v)
          (NewChartData 120))).visibleValues 40
        = (List.replicate 200 (0:ℚ)).drop 160) := by
  constructor
  · exact ⟨by decide, by decide,
      (window_sliding.1 (mkDemoChart [3, 4, 5]) 2 (by decide) (by decide)).2.1⟩
  · exact ⟨by rw [List.length_replicate], (window_sliding.2 (List.replicate 200 (0:ℚ))
      (by rw [List.length_replicate])).2.2⟩

/-- `ChartSet` manages multiple charts (charts.go). -/
structure ChartSet where
  charts : List Chart
  width : Int
  height : Int
deriving DecidableEq

/-- `NewChartSet` creates a new chart set (charts.go). -/
def NewChartSet : ChartSet := { charts := [], width := 0, height := 0 }

/-- `ChartSet.AddChart` adds a chart to the set (charts.go). -/
def ChartSet.AddChart (cs : ChartSet) (chart : Chart) : ChartSet :=
  { cs with charts := cs.charts ++ [chart] }

/-- `ChartSet.SetSize` (charts.go): store the set's dimensions and give
every member chart the width unchanged and height `height / count`
(Go integer division, `Int.tdiv`). -/
def ChartSet.SetSize (cs : ChartSet) (width height : Int) : ChartSet :=
  let cs1 : ChartSet := { cs with width := width, height := height }
  if cs1.charts.length > 0 then
    let chartHeight := Int.tdiv height (cs1.charts.length : Int)
    { cs1 with charts := cs1.charts.map (fun chart => chart.SetSize width chartHeight) }
  else cs1

/-- A demo set of three charts. -/
def demoSet3 : ChartSet :=
  { charts := [mkDemoChart [], mkDemoChart [], mkDemoChart []], width := 0, height := 0 }

/-- C8: for every `ChartSet` with at least one chart, `SetSize(w, h)`
assigns every member chart height `h / count` (integer division,
remainder not redistributed) and width `w` unchanged; concretely, with
3 charts, `SetSize(100, 30)` and `SetSize(100, 31)` both assign each
chart height 10. -/
theorem chartset_even_distribution :
    (∀ (cs : ChartSet) (w h : Int), 1 ≤ cs.charts.length →
      (cs.SetSize w h).charts.length = cs.charts.length ∧
      ∀ ch ∈ (cs.SetSize w h).charts,
        ch.height = Int.tdiv h (cs.charts.length : Int) ∧ ch.width = w) ∧
    ((demoSet3.SetSize 100 30).charts.map Chart.height = [10, 10, 10] ∧
      (demoSet3.SetSize 100 31).charts.map Chart.height = [10, 10, 10]) := by
  constructor
  · intro cs w h hcs
    unfold ChartSet.SetSize
    dsimp only
    rw [if_pos (by omega)]
    dsimp only
    constructor
    · simp
    · intro ch hch
      simp only [List.mem_map] at hch
      obtain ⟨ch0, _, rfl⟩ := hch
      exact ⟨rfl, rfl⟩
  · constructor
    · decide
    · decide

/-- Witness for C8: applying the distribution law to the three-chart
set at `SetSize(100, 31)`; the first member gets height `31/3 = 10` and
width 100. -/
theorem chartset_even_distribution_witness :
    1 ≤ demoSet3.charts.length ∧
    (demoSet3.SetSize 100 31).charts.length = demoSet3.charts.length ∧
    ((demoSet3.SetSize 100 31).charts.getD 0 (mkDemoChart [])).height = Int.tdiv 31 3 ∧
    ((demoSet3.SetSize 100 31).charts.getD 0 (mkDemoChart [])).width = 100 := by
  have h := chartset_even_distribution.1 demoSet3 100 31 (by decide)
  refine ⟨by decide, h.1, ?_, ?_⟩
  · exact (h.2 ((demoSet3.SetSize 100 31).charts.getD 0 (mkDemoChart [])) (by decide)).1
  · exact (h.2 ((demoSet3.SetSize 100 31).charts.getD 0 (mkDemoChart [])) (by decide)).2

/-- UI layout constants (view.go). -/
def DefaultChartWidth : Int := 80

def DefaultChartHeight : Int := 20

def MaxChartDataPoints : Nat := 120

/-- Space reserved for title, x-axis, and time labels (view.go). -/
def ChartHeightReserve : Int := 4

/-- Width reserved for Y-axis labels (view.go). -/
def YAxisLabelWidth : Int := 11

/-- Minimum height for a chart (view.go). -/
def MinChartHeight : Int := 3

/-- Row `y` of a grid.  Go indexes `grid[y]` directly and call sites
keep `y` in range; out-of-range rows read as the empty row here. -/
def rowAt (grid : List (List Char)) (y : Nat) : List Char := grid.getD y []

/-- The character in cell `(y, x)` of a grid; out-of-range cells read as
a blank.  Observation helper for stating grid properties. -/
def cellAt (grid : List (List Char)) (y x : Nat) : Char := (rowAt grid y).getD x ' '

/-- Go `for y := s; y <= e; y++` iteration values (inclusive range). -/
def intRangeIncl (s e : Int) : List Int :=
  (List.range (e + 1 - s).toNat).map (fun k => s + Int.ofNat k)

/-- The body of the `drawVerticalLine` loop (charts.go): write the
connector `'│'` at column `x` of row `y` only when the row index is in
range, differs from both endpoint rows, and the cell is still blank. -/
def dvlStep (x y1 y2 height : Int) (g : List (List Char)) (y : Int) : List (List Char) :=
  if 0 ≤ y ∧ y < height ∧ y ≠ y1 ∧ y ≠ y2 then
    let line := rowAt g y.toNat
    if x < (line.length : Int) ∧ line.getD x.toNat ' ' = ' ' then
      g.set y.toNat (line.set x.toNat '│')
    else g
  else g

/-- `drawVerticalLine` (charts.go): draw a vertical connector between
two points in column `x`, from the smaller to the larger row, skipping
the two endpoint rows and any non-blank cell.  (The Go receiver is
unused.) -/
def drawVerticalLine (grid : List (List Char)) (x y1 y2 width height : Int) : List (List Char) :=
  if x ≥ width ∨ x < 0 then grid
  else
    (intRangeIncl (if y1 > y2 then y2 else y1) (if y1 > y2 then y1 else y2)).foldl
      (dvlStep x y1 y2 height) grid

/-- `Chart.setGridPoint` (charts.go): write the glyph for data point
`dataIdx` into cell `(y, x)` when the column is inside the row. -/
def Chart.setGridPoint (c : Chart) (grid : List (List Char)) (x y dataIdx height : Int)
    (mn mx : ℚ) : List (List Char) :=
  let line := rowAt grid y.toNat
  if x < (line.length : Int) then
    grid.set y.toNat (line.set x.toNat (c.getPlotChar dataIdx y height mn mx))
  else grid

/-- `Chart.plotSinglePoint` (charts.go): plot data point `dataIdx` at
column `x` (if its row is in range), then connect it to the previous
point with a vertical line. -/
def Chart.plotSinglePoint (c : Chart) (grid : List (List Char)) (dataIdx x : Int)
    (mn mx : ℚ) (height chartWidth startIdx : Int) : List (List Char) :=
  let y := valueToY (c.dataValue dataIdx) mn mx height
  let grid1 := if 0 ≤ y ∧ y < height then c.setGridPoint grid x y dataIdx height mn mx else grid
  if dataIdx > startIdx then
    drawVerticalLine grid1 x (valueToY (c.dataValue (dataIdx - 1)) mn mx height) y
      chartWidth height
  else grid1

/-- `Chart.plotDataPoints` (charts.go): plot all visible data points.
The Go loop runs `i` from `startIdx` to `endIdx`, breaking when
`x = i - startIdx` reaches `chartWidth`; see `plotCount`. -/
def Chart.plotDataPoints (c : Chart) (grid : List (List Char)) (mn mx : ℚ)
    (height chartWidth : Int) : List (List Char) :=
  let se := c.calculateVisibleDataRange chartWidth
  (List.range (plotCount se.1 se.2 chartWidth)).foldl
    (fun g k => c.plotSinglePoint g (se.1 + Int.ofNat k) (Int.ofNat k) mn mx height chartWidth
      se.1) grid

/-- `Chart.initializeEmptyGrid` (charts.go): `make([]string, height)`
panics for a negative length; each row is `strings.Repeat(" ", width)`,
which panics for a negative width (only reachable when at least one row
is created).  (The Go receiver is unused.) -/
def initializeEmptyGrid (height width : Int) : Option (List (List Char)) :=
  if height < 0 then none
  else if height = 0 then some []
  else (goStringsRepeat ' ' width).map (fun row => List.replicate height.toNat row)

/-- `Chart.calculateEffectiveChartWidth` (charts.go). -/
def Chart.calculateEffectiveChartWidth (c : Chart) : Int := c.width - YAxisLabelWidth

/-- `Chart.applyColorToGrid` (charts.go):
`fmt.Sprintf("[%s]%s[-]", c.color, line)` for every row. -/
def Chart.applyColorToGrid (c : Chart) (grid : List (List Char)) : List (List Char) :=
  grid.map (fun line => '[' :: c.color ++ (']' :: line) ++ "[-]".toList)

/-- `Chart.createGrid` (charts.go): allocate the empty grid, return it
unchanged (uncolored) for an empty buffer, otherwise plot the points
and color every row. -/
def Chart.createGrid (c : Chart) (mn mx : ℚ) (height : Int) : Option (List (List Char)) :=
  (initializeEmptyGrid height c.calculateEffectiveChartWidth).map (fun grid =>
    if c.data.values.length = 0 then grid
    else c.applyColorToGrid (c.plotDataPoints grid mn mx height c.calculateEffectiveChartWidth))

theorem listGetD_set_eq {α : Type} (l : List α) (i : Nat) (a d : α) (h : i < l.length) :
    (l.set i a).getD i d = a := by
  rw [List.getD_eq_getElem?_getD, List.getElem?_set_self h]
  rfl

theorem listGetD_set_ne {α : Type} (l : List α) (i j : Nat) (a d : α) (h : i ≠ j) :
    (l.set i a).getD j d = l.getD j d := by
  rw [List.getD_eq_getElem?_getD, List.getElem?_set_ne h, ← List.getD_eq_getElem?_getD]

theorem rowAt_set (g : List (List Char)) (n : Nat) (row : List Char) (yy : Nat) :
    rowAt (g.set n row) yy = if yy = n ∧ n < g.length then row else rowAt g yy := by
  unfold rowAt
  rcases eq_or_ne yy n with rfl | hne
  · rcases Nat.lt_or_ge yy g.length with hlt | hge
    · rw [if_pos ⟨rfl, hlt⟩]
      exact listGetD_set_eq g yy row [] hlt
    · rw [if_neg (by omega), List.set_eq_of_length_le hge]
  · rw [if_neg (by tauto)]
    exact listGetD_set_ne g n yy row [] (Ne.symm hne)

theorem cellAt_set_row (g : List (List Char)) (n : Nat) (row : List Char) (yy xx : Nat) :
    cellAt (g.set n row) yy xx
      = if yy = n ∧ n < g.length then row.getD xx ' ' else cellAt g yy xx := by
  unfold cellAt
  rw [rowAt_set]
  split
  · rfl
  · rfl

/-- What one connector-drawing pass may do to a grid: same shape, and
every cell is either untouched or was blank, got the connector glyph,
lies off both endpoint rows, and sits in the connector's column. -/
def connectorSpec (x y1 y2 : Int) (g g2 : List (List Char)) : Prop :=
  g2.length = g.length ∧
  (∀ yy, (rowAt g2 yy).length = (rowAt g yy).length) ∧
  ∀ yy xx, cellAt g2 yy xx = cellAt g yy xx ∨
    (cellAt g yy xx = ' ' ∧ cellAt g2 yy xx = '│' ∧
      (yy : Int) ≠ y1 ∧ (yy : Int) ≠ y2 ∧ (xx : Int) = x)

theorem connectorSpec_refl (x y1 y2 : Int) (g : List (List Char)) :
    connectorSpec x y1 y2 g g :=
  ⟨rfl, fun _ => rfl, fun _ _ => Or.inl rfl⟩

theorem connectorSpec_trans (x y1 y2 : Int) {g g2 g3 : List (List Char)}
    (h12 : connectorSpec x y1 y2 g g2) (h23 : connectorSpec x y1 y2 g2 g3) :
    connectorSpec x y1 y2 g g3 := by
  refine ⟨h23.1.trans h12.1, fun yy => (h23.2.1 yy).trans (h12.2.1 yy), ?_⟩
  intro yy xx
  rcases h23.2.2 yy xx with h | ⟨hb, hc, hy1, hy2, hx⟩
  · rcases h12.2.2 yy xx with h2 | ⟨hb2, hc2, hy1, hy2, hx⟩
    · exact Or.inl (h.trans h2)
    · exact Or.inr ⟨hb2, h.trans hc2, hy1, hy2, hx⟩
  · rcases h12.2.2 yy xx with h2 | ⟨hb2, hc2, _, _, _⟩
    · exact Or.inr ⟨h2 ▸ hb, hc, hy1, hy2, hx⟩
    · rw [hc2] at hb
      exact absurd hb (by decide)

theorem connectorSpec_step (x y1 y2 height : Int) (hx : 0 ≤ x)
    (g : List (List Char)) (y : Int) :
    connectorSpec x y1 y2 g (dvlStep x y1 y2 height g y) := by
  unfold dvlStep
  split
  case isFalse => exact connectorSpec_refl x y1 y2 g
  case isTrue h =>
    obtain ⟨hy0, hyh, hne1, hne2⟩ := h
    dsimp only
    split
    case isFalse => exact connectorSpec_refl x y1 y2 g
    case isTrue h2 =>
      obtain ⟨hxlen, hblank⟩ := h2
      have hxtn : x.toNat < (rowAt g y.toNat).length := by omega
      refine ⟨by simp, ?_, ?_⟩
      · intro yy
        rw [rowAt_set]
        split
        case isTrue hc =>
          obtain ⟨rfl, _⟩ := hc
          simp
        case isFalse => rfl
      · intro yy xx
        rw [cellAt_set_row]
        split
        case isTrue hc =>
          obtain ⟨rfl, hlt⟩ := hc
          rcases eq_or_ne xx x.toNat with rfl | hxx
          · right
            refine ⟨?_, ?_, ?_, ?_, ?_⟩
            · show cellAt g y.toNat x.toNat = ' '
              exact hblank
            · exact listGetD_set_eq _ x.toNat '│' ' ' hxtn
            · rw [Int.toNat_of_nonneg hy0]
              exact hne1
            · rw [Int.toNat_of_nonneg hy0]
              exact hne2
            · omega
          · left
            exact listGetD_set_ne _ x.toNat xx '│' ' ' (Ne.symm hxx)
        case isFalse => exact Or.inl rfl

theorem connectorSpec_fold (x y1 y2 height : Int) (hx : 0 ≤ x) :
    ∀ (ys : List Int) (g : List (List Char)),
      connectorSpec x y1 y2 g (ys.foldl (dvlStep x y1 y2 height) g) := by
  intro ys
  induction ys with
  | nil => intro g; exact connectorSpec_refl x y1 y2 g
  | cons y ys ih =>
    intro g
    rw [List.foldl_cons]
    exact connectorSpec_trans x y1 y2 (connectorSpec_step x y1 y2 height hx g y) (ih _)

/-- Characterization of `drawVerticalLine`: the connector is written
only into still-blank cells, only in its own column, and never at the
two endpoint rows; every other cell is untouched, and the grid shape is
preserved. -/
theorem drawVerticalLine_spec (grid : List (List Char)) (x y1 y2 width height : Int) :
    connectorSpec x y1 y2 grid (drawVerticalLine grid x y1 y2 width height) := by
  unfold drawVerticalLine
  split
  case isTrue => exact connectorSpec_refl x y1 y2 grid
  case isFalse h =>
    push_neg at h
    exact connectorSpec_fold x y1 y2 height h.2 _ grid

theorem setGridPoint_length (c : Chart) (grid : List (List Char)) (x y dataIdx height : Int)
    (mn mx : ℚ) :
    (c.setGridPoint grid x y dataIdx height mn mx).length = grid.length := by
  unfold Chart.setGridPoint
  dsimp only
  split
  · simp
  · rfl

theorem setGridPoint_rowLength (c : Chart) (grid : List (List Char)) (x y dataIdx height : Int)
    (mn mx : ℚ) (yy : Nat) :
    (rowAt (c.setGridPoint grid x y dataIdx height mn mx) yy).length = (rowAt grid yy).length := by
  unfold Chart.setGridPoint
  dsimp only
  split
  · rw [rowAt_set]
    split
    case isTrue hc =>
      obtain ⟨rfl, _⟩ := hc
      simp
    case isFalse => rfl
  · rfl

theorem setGridPoint_cell_ne (c : Chart) (grid : List (List Char)) (x y dataIdx height : Int)
    (mn mx : ℚ) (yy xx : Nat) (h : xx ≠ x.toNat) :
    cellAt (c.setGridPoint grid x y dataIdx height mn mx) yy xx = cellAt grid yy xx := by
  unfold Chart.setGridPoint
  dsimp only
  split
  · rw [cellAt_set_row]
    split
    case isTrue hc =>
      obtain ⟨rfl, _⟩ := hc
      rw [listGetD_set_ne _ x.toNat xx _ ' ' (Ne.symm h)]
      rfl
    case isFalse => rfl
  · rfl

theorem setGridPoint_cell_eq (c : Chart) (grid : List (List Char)) (x y dataIdx height : Int)
    (mn mx : ℚ) (hx0 : 0 ≤ x) (hxlen : x < ((rowAt grid y.toNat).length : Int))
    (hylen : y.toNat < grid.length) :
    cellAt (c.setGridPoint grid x y dataIdx height mn mx) y.toNat x.toNat
      = c.getPlotChar dataIdx y height mn mx := by
  unfold Chart.setGridPoint
  dsimp only
  rw [if_pos hxlen, cellAt_set_row, if_pos ⟨rfl, hylen⟩]
  exact listGetD_set_eq _ x.toNat _ ' ' (by omega)

/-- Every glyph `getPlotChar` returns is a visible character, never a
blank. -/
theorem getPlotChar_ne_space (c : Chart) (dataIdx y height : Int) (mn mx : ℚ) :
    c.getPlotChar dataIdx y height mn mx ≠ ' ' := by
  unfold Chart.getPlotChar
  split
  · decide
  · split
    · dsimp only
      split
      · decide
      · split
        · decide
        · decide
    · decide

theorem plotSinglePoint_shape (c : Chart) (grid : List (List Char)) (dataIdx x : Int)
    (mn mx : ℚ) (height chartWidth startIdx : Int) :
    (c.plotSinglePoint grid dataIdx x mn mx height chartWidth startIdx).length = grid.length ∧
    ∀ yy, (rowAt (c.plotSinglePoint grid dataIdx x mn mx height chartWidth startIdx) yy).length
        = (rowAt grid yy).length := by
  unfold Chart.plotSinglePoint
  dsimp only
  have hshape1 : (if 0 ≤ valueToY (c.dataValue dataIdx) mn mx height ∧
        valueToY (c.dataValue dataIdx) mn mx height < height then
        c.setGridPoint grid x (valueToY (c.dataValue dataIdx) mn mx height) dataIdx height mn mx
      else grid).length = grid.length ∧
      ∀ yy, (rowAt (if 0 ≤ valueToY (c.dataValue dataIdx) mn mx height ∧
        valueToY (c.dataValue dataIdx) mn mx height < height then
        c.setGridPoint grid x (valueToY (c.dataValue dataIdx) mn mx height) dataIdx height mn mx
      else grid) yy).length = (rowAt grid yy).length := by
    split
    · exact ⟨setGridPoint_length c grid x _ dataIdx height mn mx,
        fun yy => setGridPoint_rowLength c grid x _ dataIdx height mn mx yy⟩
    · exact ⟨rfl, fun _ => rfl⟩
  split
  · have hspec := drawVerticalLine_spec
      (if 0 ≤ valueToY (c.dataValue dataIdx) mn mx height ∧
        valueToY (c.dataValue dataIdx) mn mx height < height then
        c.setGridPoint grid x (valueToY (c.dataValue dataIdx) mn mx height) dataIdx height mn mx
      else grid)
      x (valueToY (c.dataValue (dataIdx - 1)) mn mx height)
      (valueToY (c.dataValue dataIdx) mn mx height) chartWidth height
    exact ⟨hspec.1.trans hshape1.1, fun yy => (hspec.2.1 yy).trans (hshape1.2 yy)⟩
  · exact hshape1

theorem plotSinglePoint_cell_other (c : Chart) (grid : List (List Char)) (dataIdx x : Int)
    (mn mx : ℚ) (height chartWidth startIdx : Int) (hx0 : 0 ≤ x)
    (yy xx : Nat) (hxx : (xx : Int) ≠ x) :
    cellAt (c.plotSinglePoint grid dataIdx x mn mx height chartWidth startIdx) yy xx
      = cellAt grid yy xx := by
  unfold Chart.plotSinglePoint
  dsimp only
  have h1 : cellAt (if 0 ≤ valueToY (c.dataValue dataIdx) mn mx height ∧
        valueToY (c.dataValue dataIdx) mn mx height < height then
        c.setGridPoint grid x (valueToY (c.dataValue dataIdx) mn mx height) dataIdx height mn mx
      else grid) yy xx = cellAt grid yy xx := by
    split
    · exact setGridPoint_cell_ne c grid x _ dataIdx height mn mx yy xx (by omega)
    · rfl
  split
  · have hspec := drawVerticalLine_spec
      (if 0 ≤ valueToY (c.dataValue dataIdx) mn mx height ∧
        valueToY (c.dataValue dataIdx) mn mx height < height then
        c.setGridPoint grid x (valueToY (c.dataValue dataIdx) mn mx height) dataIdx height mn mx
      else grid)
      x (valueToY (c.dataValue (dataIdx - 1)) mn mx height)
      (valueToY (c.dataValue dataIdx) mn mx height) chartWidth height
    rcases hspec.2.2 yy xx with h | ⟨_, _, _, _, hcol⟩
    · exact h.trans h1
    · exact absurd hcol hxx
  · exact h1

theorem plotSinglePoint_cell_self (c : Chart) (grid : List (List Char)) (dataIdx x : Int)
    (mn mx : ℚ) (height chartWidth startIdx : Int) (hx0 : 0 ≤ x)
    (hy0 : 0 ≤ valueToY (c.dataValue dataIdx) mn mx height)
    (hyh : valueToY (c.dataValue dataIdx) mn mx height < height)
    (hxlen : x < ((rowAt grid (valueToY (c.dataValue dataIdx) mn mx height).toNat).length : Int))
    (hylen : (valueToY (c.dataValue dataIdx) mn mx height).toNat < grid.length) :
    cellAt (c.plotSinglePoint grid dataIdx x mn mx height chartWidth startIdx)
        (valueToY (c.dataValue dataIdx) mn mx height).toNat x.toNat
      = c.getPlotChar dataIdx (valueToY (c.dataValue dataIdx) mn mx height) height mn mx := by
  unfold Chart.plotSinglePoint
  dsimp only
  have h1 : cellAt (if 0 ≤ valueToY (c.dataValue dataIdx) mn mx height ∧
        valueToY (c.dataValue dataIdx) mn mx height < height then
        c.setGridPoint grid x (valueToY (c.dataValue dataIdx) mn mx height) dataIdx height mn mx
      else grid) (valueToY (c.dataValue dataIdx) mn mx height).toNat x.toNat
      = c.getPlotChar dataIdx (valueToY (c.dataValue dataIdx) mn mx height) height mn mx := by
    rw [if_pos ⟨hy0, hyh⟩]
    exact setGridPoint_cell_eq c grid x _ dataIdx height mn mx hx0 hxlen hylen
  split
  · have hspec := drawVerticalLine_spec
      (if 0 ≤ valueToY (c.dataValue dataIdx) mn mx height ∧
        valueToY (c.dataValue dataIdx) mn mx height < height then
        c.setGridPoint grid x (valueToY (c.dataValue dataIdx) mn mx height) dataIdx height mn mx
      else grid)
      x (valueToY (c.dataValue (dataIdx - 1)) mn mx height)
      (valueToY (c.dataValue dataIdx) mn mx height) chartWidth height
    rcases hspec.2.2 (valueToY (c.dataValue dataIdx) mn mx height).toNat x.toNat
      with h | ⟨hb, _, _, _, _⟩
    · exact h.trans h1
    · rw [h1] at hb
      exact absurd hb (getPlotChar_ne_space c dataIdx _ height mn mx)
  · exact h1

/-- The grid `initializeEmptyGrid` produces when it succeeds:
`height` rows of `chartWidth` blanks. -/
def emptyPlotGrid (height chartWidth : Int) : List (List Char) :=
  List.replicate height.toNat (List.replicate chartWidth.toNat ' ')

/-- The first `n` iterations of the plotting loop, starting from the
empty grid. -/
def plotFoldN (c : Chart) (mn mx : ℚ) (height chartWidth startIdx : Int) (n : Nat) :
    List (List Char) :=
  (List.range n).foldl
    (fun g k => c.plotSinglePoint g (startIdx + Int.ofNat k) (Int.ofNat k) mn mx height
      chartWidth startIdx)
    (emptyPlotGrid height chartWidth)

theorem plotFoldN_succ (c : Chart) (mn mx : ℚ) (height chartWidth startIdx : Int) (n : Nat) :
    plotFoldN c mn mx height chartWidth startIdx (n + 1)
      = c.plotSinglePoint (plotFoldN c mn mx height chartWidth startIdx n)
          (startIdx + Int.ofNat n) (Int.ofNat n) mn mx height chartWidth startIdx := by
  unfold plotFoldN
  rw [List.range_succ, List.foldl_append, List.foldl_cons, List.foldl_nil]

theorem rowAt_emptyPlotGrid (height chartWidth : Int) (yy : Nat) (h : yy < height.toNat) :
    rowAt (emptyPlotGrid height chartWidth) yy = List.replicate chartWidth.toNat ' ' := by
  unfold rowAt emptyPlotGrid
  rw [List.getD_eq_getElem?_getD, List.getElem?_replicate_of_lt h]
  rfl

theorem visibleStart_nonneg (c : Chart) (chartWidth : Int) :
    0 ≤ (c.calculateVisibleDataRange chartWidth).1 := by
  unfold Chart.calculateVisibleDataRange
  dsimp only
  split
  · omega
  · omega

/-- Invariant of the plotting loop: the grid shape never changes, and
every already-plotted point's cell still holds its glyph. -/
theorem plotFoldN_invariant (c : Chart) (mn mx : ℚ) (height chartWidth startIdx : Int) :
    ∀ n : Nat, n ≤ chartWidth.toNat →
      ((plotFoldN c mn mx height chartWidth startIdx n).length = height.toNat ∧
        ∀ yy, (rowAt (plotFoldN c mn mx height chartWidth startIdx n) yy).length
          = (rowAt (emptyPlotGrid height chartWidth) yy).length) ∧
      ∀ j : Nat, j < n →
        0 ≤ valueToY (c.dataValue (startIdx + Int.ofNat j)) mn mx height →
        valueToY (c.dataValue (startIdx + Int.ofNat j)) mn mx height < height →
        cellAt (plotFoldN c mn mx height chartWidth startIdx n)
            (valueToY (c.dataValue (startIdx + Int.ofNat j)) mn mx height).toNat j
          = c.getPlotChar (startIdx + Int.ofNat j)
              (valueToY (c.dataValue (startIdx + Int.ofNat j)) mn mx height) height mn mx := by
  intro n
  induction n with
  | zero =>
    intro _
    constructor
    · constructor
      · simp [plotFoldN, emptyPlotGrid]
      · intro yy
        rfl
    · intro j hj
      omega
  | succ n ih =>
    intro hn
    obtain ⟨⟨ihlen, ihrows⟩, ihpts⟩ := ih (by omega)
    have hx0 : (0:Int) ≤ Int.ofNat n := by
      simp [Int.ofNat_eq_coe]
    have hshape := plotSinglePoint_shape c (plotFoldN c mn mx height chartWidth startIdx n)
      (startIdx + Int.ofNat n) (Int.ofNat n) mn mx height chartWidth startIdx
    constructor
    · constructor
      · rw [plotFoldN_succ, hshape.1, ihlen]
      · intro yy
        rw [plotFoldN_succ]
        rw [hshape.2 yy, ihrows yy]
    · intro j hj hy0 hyh
      rcases Nat.lt_or_ge j n with hjn | hjn
      · rw [plotFoldN_succ]
        rw [plotSinglePoint_cell_other c _ _ _ mn mx height chartWidth startIdx hx0 _ j
          (by simp only [Int.ofNat_eq_coe]; omega)]
        exact ihpts j hjn hy0 hyh
      · have hjeq : j = n := by omega
        subst hjeq
        rw [plotFoldN_succ]
        have hyht : (valueToY (c.dataValue (startIdx + Int.ofNat j)) mn mx height).toNat
            < height.toNat := by omega
        have hrow : (rowAt (plotFoldN c mn mx height chartWidth startIdx j)
            (valueToY (c.dataValue (startIdx + Int.ofNat j)) mn mx height).toNat).length
            = chartWidth.toNat := by
          rw [ihrows, rowAt_emptyPlotGrid height chartWidth _ hyht]
          simp
        have hcell := plotSinglePoint_cell_self c
          (plotFoldN c mn mx height chartWidth startIdx j)
          (startIdx + Int.ofNat j) (Int.ofNat j) mn mx height chartWidth startIdx hx0 hy0 hyh
          (by rw [hrow]; simp only [Int.ofNat_eq_coe]; omega)
          (by rw [ihlen]; exact hyht)
        rw [← Int.toNat_ofNat j]
        exact hcell

/-- C10: during grid construction, the vertical connector is written
only into cells that are still blank, never at the two endpoint rows of
its segment and only in its own column (part 1, a full characterization
of `drawVerticalLine`); consequently every cell that point plotting set
to a data-point glyph still holds that glyph in the finished grid
(part 2: after all plotting iterations, the cell of every plotted point
holds exactly its `getPlotChar` glyph). -/
theorem connector_preserves_points :
    (∀ (grid : List (List Char)) (x y1 y2 width height : Int),
      connectorSpec x y1 y2 grid (drawVerticalLine grid x y1 y2 width height)) ∧
    (∀ (c : Chart) (mn mx : ℚ) (height chartWidth : Int) (k : Nat),
      k < plotCount (c.calculateVisibleDataRange chartWidth).1
            (c.calculateVisibleDataRange chartWidth).2 chartWidth →
      0 ≤ valueToY (c.dataValue ((c.calculateVisibleDataRange chartWidth).1 + Int.ofNat k))
            mn mx height →
      valueToY (c.dataValue ((c.calculateVisibleDataRange chartWidth).1 + Int.ofNat k))
            mn mx height < height →
      cellAt (c.plotDataPoints (emptyPlotGrid height chartWidth) mn mx height chartWidth)
          (valueToY (c.dataValue ((c.calculateVisibleDataRange chartWidth).1 + Int.ofNat k))
            mn mx height).toNat k
        = c.getPlotChar ((c.calculateVisibleDataRange chartWidth).1 + Int.ofNat k)
            (valueToY (c.dataValue ((c.calculateVisibleDataRange chartWidth).1 + Int.ofNat k))
              mn mx height) height mn mx) := by
  constructor
  · intro grid x y1 y2 width height
    exact drawVerticalLine_spec grid x y1 y2 width height
  · intro c mn mx height chartWidth k hk hy0 hyh
    have heq : c.plotDataPoints (emptyPlotGrid height chartWidth) mn mx height chartWidth
        = plotFoldN c mn mx height chartWidth (c.calculateVisibleDataRange chartWidth).1
            (plotCount (c.calculateVisibleDataRange chartWidth).1
              (c.calculateVisibleDataRange chartWidth).2 chartWidth) := rfl
    rw [heq]
    exact (plotFoldN_invariant c mn mx height chartWidth
      (c.calculateVisibleDataRange chartWidth).1
      (plotCount (c.calculateVisibleDataRange chartWidth).1
        (c.calculateVisibleDataRange chartWidth).2 chartWidth)
      (Nat.min_le_right _ _)).2 k hk hy0 hyh

/-- Witness for C10 at a two-sample chart, plot width 3, bounds (0, 1),
first loop iteration: the plotted cell holds its glyph in the finished
grid. -/
theorem connector_preserves_points_witness :
    0 < plotCount ((mkDemoChart [0, 1]).calculateVisibleDataRange 3).1
        ((mkDemoChart [0, 1]).calculateVisibleDataRange 3).2 3 ∧
    (0:Int) ≤ valueToY ((mkDemoChart [0, 1]).dataValue
        (((mkDemoChart [0, 1]).calculateVisibleDataRange 3).1 + Int.ofNat 0)) 0 1 3 ∧
    valueToY ((mkDemoChart [0, 1]).dataValue
        (((mkDemoChart [0, 1]).calculateVisibleDataRange 3).1 + Int.ofNat 0)) 0 1 3 < 3 ∧
    cellAt ((mkDemoChart [0, 1]).plotDataPoints (emptyPlotGrid 3 3) 0 1 3 3)
        (valueToY ((mkDemoChart [0, 1]).dataValue
          (((mkDemoChart [0, 1]).calculateVisibleDataRange 3).1 + Int.ofNat 0)) 0 1 3).toNat 0
      = (mkDemoChart [0, 1]).getPlotChar
          (((mkDemoChart [0, 1]).calculateVisibleDataRange 3).1 + Int.ofNat 0)
          (valueToY ((mkDemoChart [0, 1]).dataValue
            (((mkDemoChart [0, 1]).calculateVisibleDataRange 3).1 + Int.ofNat 0)) 0 1 3)
          3 0 1 := by
  have hdv : (mkDemoChart [0, 1]).dataValue
      (((mkDemoChart [0, 1]).calculateVisibleDataRange 3).1 + Int.ofNat 0) = 0 := rfl
  have hy : valueToY (0:ℚ) 0 1 3 = 2 := by
    norm_num [valueToY, goTrunc]
  refine ⟨by decide, ?_, ?_, ?_⟩
  · rw [hdv, hy]
    decide
  · rw [hdv, hy]
    decide
  · exact connector_preserves_points.2 (mkDemoChart [0, 1]) 0 1 3 3 0 (by decide)
      (by rw [hdv, hy]; decide) (by rw [hdv, hy]; decide)

/-- Digits of an `Int` (Go `%d`). -/
def intDigits (n : Int) : List Char :=
  if n < 0 then '-' :: natDigits (-n).toNat else natDigits n.toNat

/-- Two-digit zero-padded field of Go's `"15:04:05"` time format. -/
def pad2 (n : Nat) : List Char := if n < 10 then '0' :: natDigits n else natDigits n

/-- Go `t.Format("15:04:05")` for a timestamp modelled as seconds:
hours-minutes-seconds of the day, zero-padded. -/
def formatClock (t : Nat) : List Char :=
  pad2 (t / 3600 % 24) ++ ":".toList ++ pad2 (t % 3600 / 60) ++ ":".toList ++ pad2 (t % 60)

/-- `formatChartDuration` (charts.go) on a duration in seconds. -/
def formatChartDuration (d : Int) : List Char :=
  if d < 60 then intDigits d ++ "s".toList
  else if d < 3600 then intDigits (Int.tdiv d 60) ++ "m".toList
  else intDigits (Int.tdiv d 3600) ++ "h".toList ++ intDigits (Int.tdiv d 60 % 60) ++ "m".toList

/-- `Chart.prepareTitleString` (charts.go): the padded title, truncated
with the slice `c.title[:c.width-2]` when too wide — a slice that
panics (`none`) when `c.width < 2`. -/
def Chart.prepareTitleString (c : Chart) : Option (List Char) :=
  let titleStr := ' ' :: c.title ++ [' ']
  if c.width < (titleStr.length : Int) then
    (goTake c.title (c.width - 2)).map (fun s => s ++ [' '])
  else some titleStr

/-- `Chart.calculateTitlePadding` (charts.go). -/
def Chart.calculateTitlePadding (c : Chart) (titleStr : List Char) : Int × Int :=
  let totalPadding := c.width - (titleStr.length : Int)
  if totalPadding ≤ 0 then (0, 0)
  else
    let leftPad := Int.tdiv totalPadding 2
    (leftPad, totalPadding - leftPad)

/-- `Chart.renderTitle` (charts.go). -/
def Chart.renderTitle (c : Chart) : Option (List Char) := do
  let titleStr ← c.prepareTitleString
  let pads := c.calculateTitlePadding titleStr
  pure ((if pads.1 > 0 then List.replicate pads.1.toNat '─' else []) ++
    ('[' :: c.color ++ ":b]".toList ++ titleStr ++ "[-]".toList) ++
    (if pads.2 > 0 then List.replicate pads.2.toNat '─' else []) ++ ['\n'])

/-- `Chart.calculateChartHeight` (charts.go). -/
def Chart.calculateChartHeight (c : Chart) : Int :=
  let chartHeight := c.height - ChartHeightReserve
  if chartHeight < MinChartHeight then MinChartHeight else chartHeight

/-- `Chart.calculateYValue` (charts.go). -/
def Chart.calculateYValue (_c : Chart) (row totalRows : Int) (mn mx : ℚ) : ℚ :=
  if totalRows ≤ 1 then mx
  else mx - ((row : ℚ) / ((totalRows - 1 : Int) : ℚ)) * (mx - mn)

/-- `Chart.renderChartBody` (charts.go): Y-axis labels and grid rows;
the string builder is modelled by a left fold over the row indices. -/
def Chart.renderChartBody (c : Chart) (mn mx : ℚ) : Option (List Char) := do
  let chartHeight := c.calculateChartHeight
  let grid ← c.createGrid mn mx chartHeight
  pure ((List.range chartHeight.toNat).foldl (fun acc i =>
    acc ++ "[gray]".toList ++
    goPad 8 (c.formatValue (c.calculateYValue (Int.ofNat i) chartHeight mn mx)) ++
    " ┤[-] ".toList ++ rowAt grid i ++ ['\n']) [])

/-- `Chart.renderXAxis` (charts.go): panics (`none`) when
`width - 11 < 0`. -/
def Chart.renderXAxis (c : Chart) : Option (List Char) :=
  (goStringsRepeat '─' (c.width - YAxisLabelWidth)).map (fun dashes =>
    "[gray]".toList ++ goPad 8 [] ++ " └".toList ++ dashes ++ "[-]\n".toList)

/-- `Chart.createTimeLabels` (charts.go): start time, optional centred
duration, end time.  All `strings.Repeat` counts are guarded positive
in the source, so this function is total. -/
def Chart.createTimeLabels (c : Chart) : List Char :=
  if c.data.timestamps.length = 0 then []
  else
    let chartWidth := c.width - 11
    let startTime := c.data.timestamps.headD 0
    let endTime := c.data.timestamps.getLastD 0
    let duration : Int := (endTime : Int) - (startTime : Int)
    let spacing := chartWidth - 3 * 8
    "[gray]".toList ++ goPad 8 [] ++ "   ".toList ++
    "[gray]".toList ++ formatClock startTime ++
    (if spacing > 0 ∧ c.data.timestamps.length > 1 then
      (if Int.tdiv spacing 2 > 4 then
        List.replicate (Int.tdiv spacing 2 - 4).toNat ' ' ++
        "[cyan](".toList ++ formatChartDuration duration ++ ")[-]".toList ++
        (if spacing - Int.tdiv spacing 2 - 4 > 0 then
          List.replicate (spacing - Int.tdiv spacing 2 - 4).toNat ' ' else []) ++
        "[gray]".toList ++ formatClock endTime
      else
        List.replicate spacing.toNat ' ' ++ "[gray]".toList ++ formatClock endTime)
    else []) ++
    "[-]".toList

/-- `Chart.renderEmptyChart` (charts.go): placeholder chart with a
default, unit-dependent scale.  The title slice panics for `width = 1`
and the dotted filler `strings.Repeat("·", width-11)` panics for
`width < 11`. -/
def Chart.renderEmptyChart (c : Chart) : Option (List Char) :=
  if c.width ≤ 0 ∨ c.height ≤ 0 then some []
  else do
    let titleStr ←
      if c.width < ((' ' :: c.title ++ [' ']).length : Int) then
        (goTake c.title (c.width - 2)).map (fun s => s ++ [' '])
      else some (' ' :: c.title ++ [' '])
    let sidePadding0 := Int.tdiv (c.width - (titleStr.length : Int)) 2
    let sidePadding := if sidePadding0 < 0 then 0 else sidePadding0
    let remainingPadding0 := c.width - (titleStr.length : Int) - sidePadding
    let remainingPadding := if remainingPadding0 < 0 then 0 else remainingPadding0
    let chartHeight0 := c.height - ChartHeightReserve
    let chartHeight := if chartHeight0 < 2 then 2 else chartHeight0
    let minVal : ℚ := if c.unit = "V".toList then 0 else if c.unit = "W".toList then -20 else 0
    let maxVal : ℚ := if c.unit = "V".toList then 20 else if c.unit = "W".toList then 20 else 100
    let dots ← goStringsRepeat '·' (c.width - 11)
    let axis ← goStringsRepeat '─' (c.width - 11)
    pure ((if sidePadding > 0 then List.replicate sidePadding.toNat '─' else []) ++
      ('[' :: c.color ++ ":b]".toList ++ titleStr ++ "[-]".toList) ++
      (if remainingPadding > 0 then List.replicate remainingPadding.toNat '─' else []) ++ ['\n'] ++
      (List.range chartHeight.toNat).foldl (fun acc i =>
        acc ++ "[gray]".toList ++
        goPad 8 (c.formatValue (maxVal -
          ((Int.ofNat i : ℚ) / ((chartHeight - 1 : Int) : ℚ)) * (maxVal - minVal))) ++
        " ┤[-] ".toList ++ "[gray]".toList ++ dots ++ "[-]\n".toList) [] ++
      "[gray]".toList ++ goPad 8 [] ++ " └".toList ++ axis ++ "[-]\n".toList ++
      "[gray]".toList ++ goPad 8 [] ++ "   Waiting for data...[-]".toList)

/-- `Chart.Render` (charts.go): placeholder for non-positive
dimensions, empty-buffer placeholder chart, else title, body, x-axis
and time labels.  A `none` is a Go panic. -/
def Chart.Render (c : Chart) : Option (List Char) :=
  if c.width ≤ 0 ∨ c.height ≤ 0 then some (" [gray]Initializing...[-]".toList)
  else if c.data.values.length = 0 then c.renderEmptyChart
  else
    let b := c.calculateBounds
    do
      let title ← c.renderTitle
      let body ← c.renderChartBody b.1 b.2
      let axis ← c.renderXAxis
      pure (title ++ body ++ axis ++ c.createTimeLabels)

/-- `ChartSet.Render` (charts.go): concatenate the members' renders
with a newline before every chart but the first; the boolean accumulator
flag tracks `i > 0`. -/
def ChartSet.Render (cs : ChartSet) : Option (List Char) :=
  (cs.charts.foldl (fun acc chart =>
    acc.bind (fun p => chart.Render.map (fun r =>
      (p.1 ++ (if p.2 then ['\n'] else []) ++ r, true))))
    (some ([], false))).map Prod.fst

/-- A small chart in the state the application reaches after one sample
at a narrow pane: one buffered value, width 5, height 10. -/
def c1demo : Chart :=
  { title := "Voltage".toList,
    data := { timestamps := [0], values := [1], maxSize := 120 },
    width := 5, height := 10, minValue := 0, maxValue := 0, autoScale := true,
    unit := "V".toList, color := "yellow".toList }

/-- A one-chart set around `c1demo`. -/
def cs1demo : ChartSet := { charts := [c1demo], width := 5, height := 10 }

/-- C1 fails on the code: `Chart.Render` is not total.  At width 5
(positive, with data and positive height) the body's
`strings.Repeat(" ", width-11)` receives the negative count −6 and
panics; at width 1 with an empty buffer the title truncation
`c.title[:width-2]` slices with the negative bound −1 and panics.
`ChartSet.Render` propagates the panic.  The claim (and §7 of the
spec) say these degenerate geometries produce placeholder or truncated
output. -/
theorem render_panics_on_small_width :
    (0:Int) < c1demo.width ∧ (0:Int) < c1demo.height ∧ c1demo.data.values ≠ [] ∧
    c1demo.Render = none ∧
    cs1demo.Render = none ∧
    ((mkDemoChart []).SetSize 1 10).Render = none := by
  refine ⟨by decide, by decide, by decide, ?_, ?_, ?_⟩
  · rfl
  · rfl
  · rfl
